import Mathlib

/-!
Verification of the autopkgtest automation client layer.

This file gives a shallow embedding of the three core components of the
repository — the HTML result-matrix extractor (`internal/scraper`), the
trigger-URL builder (`internal/trigger-link-generator`) and the
authenticated trigger/poll client (`internal/autopkgtest-client`) — and
proves or refutes the spec's claims about them.

Conventions used throughout:
* Go strings are modelled as Lean `String`s (lists of Unicode code points;
  all string constants involved are ASCII plus a few fixed emoji, for which
  the byte/rune distinction is immaterial);
* Go's `regexp` calls that the code performs are embedded as dedicated
  executable matchers, each faithful to the specific pattern used at the
  corresponding source line (the patterns involved are deterministic:
  their character classes are disjoint from their neighbours, so no
  backtracking behaviour has to be modelled);
* HTTP traffic is abstracted away: the functions under scrutiny are the
  pure response-processing parts, taking the response body (and, where the
  code inspects it, the final response URL) as an argument.
-/

namespace Autopkgtest

/-! ## Go string helpers (strings, unicode and regexp semantics) -/

/-- Substring containment on char lists: Go `strings.Contains(hay, pat)`. -/
def containsSubList (hay pat : List Char) : Bool :=
  match hay with
  | [] => pat.isEmpty
  | _ :: tl => pat.isPrefixOf hay || containsSubList tl pat

/-- Go `strings.Contains(s, pat)`. -/
def containsSub (s pat : String) : Bool :=
  containsSubList s.data pat.data

/-- Go `unicode.IsSpace` restricted to its Latin-1 table
(`\t \n \v \f \r ' '  U+0085 U+00A0`); higher code-point space characters
of category Z do not occur in any string handled here. -/
def isGoSpace (c : Char) : Bool :=
  c = ' ' || c = '\t' || c = '\n' || c.toNat = 11 || c.toNat = 12 ||
  c = '\r' || c.toNat = 0x85 || c.toNat = 0xA0

/-- Go `strings.TrimSpace` on char lists. -/
def goTrimList (cs : List Char) : List Char :=
  ((cs.dropWhile isGoSpace).reverse.dropWhile isGoSpace).reverse

/-- Go `strings.TrimSpace`. -/
def goTrim (s : String) : String :=
  String.mk (goTrimList s.data)

/-- The RE2 character class `\s` used by Go's `regexp`: `[\t\n\f\r ]`. -/
def isRe2Space (c : Char) : Bool :=
  c = '\t' || c = '\n' || c.toNat = 12 || c = '\r' || c = ' '

/-! ## Trigger-URL builder (`internal/trigger-link-generator/generator.go`) -/

/-- Go `LinkRequest` (generator.go:10). -/
structure LinkRequest where
  Package : String
  Version : String
  Triggers : List String
  Architectures : List String
  Suite : String
  PPA : String
  AllProposed : Bool
deriving DecidableEq

/-- Go `LinkResponse` (generator.go:21). -/
structure LinkResponse where
  URLs : List String
  Message : String
deriving DecidableEq

/-- Hex digits used by Go's percent-encoder (upper case). -/
def upperHexDigit (n : Nat) : Char :=
  (("0123456789ABCDEF".data).getD n '0')

/-- UTF-8 bytes of a code point, as Go produces them when writing a string. -/
def utf8Bytes (c : Char) : List Nat :=
  let n := c.toNat
  if n < 0x80 then [n]
  else if n < 0x800 then [0xC0 + n / 64, 0x80 + n % 64]
  else if n < 0x10000 then [0xE0 + n / 4096, 0x80 + (n / 64) % 64, 0x80 + n % 64]
  else [0xF0 + n / 262144, 0x80 + (n / 4096) % 64, 0x80 + (n / 64) % 64, 0x80 + n % 64]

/-- Whether Go's `url.QueryEscape` leaves a (single-byte) character as is:
ASCII alphanumerics and `-_.~`. -/
def queryUnreserved (c : Char) : Bool :=
  ('A' ≤ c && c ≤ 'Z') || ('a' ≤ c && c ≤ 'z') || ('0' ≤ c && c ≤ '9') ||
  c = '-' || c = '_' || c = '.' || c = '~'

/-- Go `url.QueryEscape` of one character: kept, `+` for space, or `%XX`
per UTF-8 byte. -/
def queryEscapeChar (c : Char) : List Char :=
  if queryUnreserved c then [c]
  else if c = ' ' then ['+']
  else (utf8Bytes c).flatMap (fun b => ['%', upperHexDigit (b / 16), upperHexDigit (b % 16)])

/-- Go `url.QueryEscape`. -/
def queryEscape (s : String) : String :=
  String.mk (s.data.flatMap queryEscapeChar)

/-- Lexicographic code-point order on char lists.  For valid Unicode this
coincides with the byte-wise order Go's `sort.Strings` uses (UTF-8 is
order-preserving); all keys compared here are ASCII anyway. -/
def listLt : List Char → List Char → Bool
  | [], [] => false
  | [], _ :: _ => true
  | _ :: _, [] => false
  | a :: as, b :: bs =>
    if a.toNat < b.toNat then true
    else if b.toNat < a.toNat then false
    else listLt as bs

/-- String order used by `sort.Strings` inside `url.Values.Encode`. -/
def strLt (a b : String) : Bool := listLt a.data b.data

/-- Insert a key/value pair into a key-sorted list (ascending string order,
as `sort.Strings` produces inside `url.Values.Encode`). -/
def insertPair (p : String × String) : List (String × String) → List (String × String)
  | [] => [p]
  | q :: qs => if strLt p.1 q.1 then p :: q :: qs else q :: insertPair p qs

/-- Sort pairs by key, ascending: the key order `url.Values.Encode` uses.
All keys produced by `buildPairs` are distinct, so this determines
`Encode`'s output uniquely. -/
def sortPairs : List (String × String) → List (String × String)
  | [] => []
  | p :: ps => insertPair p (sortPairs ps)

/-- Render a sorted parameter list the way `url.Values.Encode` does:
`k=v` components (both sides query-escaped) joined by `&`. -/
def encodeSorted : List (String × String) → String
  | [] => ""
  | [p] => queryEscape p.1 ++ "=" ++ queryEscape p.2
  | p :: q :: qs => queryEscape p.1 ++ "=" ++ queryEscape p.2 ++ "&" ++ encodeSorted (q :: qs)

/-- Go `url.Values.Encode` for a parameter list with distinct keys. -/
def encodeQuery (ps : List (String × String)) : String :=
  encodeSorted (sortPairs ps)

/-- The `url.Values` contents assembled by `buildURL` (generator.go:88),
in `params.Add` order: `release`, `package`, `trigger`, then conditionally
`arch`, `ppa`, `all-proposed`. -/
def buildPairs (pkg suite arch trigger ppa : String) (allProposed : Bool) :
    List (String × String) :=
  [("release", suite), ("package", pkg), ("trigger", trigger)] ++
  (if arch = "" then [] else [("arch", arch)]) ++
  (if ppa = "" then [] else [("ppa", ppa)]) ++
  (if allProposed then [("all-proposed", "1")] else [])

/-- The base URL set by `NewGenerator` (generator.go:34). -/
def generatorBaseURL : String := "https://autopkgtest.ubuntu.com/request.cgi"

/-- Go `buildURL` (generator.go:88). -/
def buildURL (pkg suite arch trigger ppa : String) (allProposed : Bool) : String :=
  generatorBaseURL ++ "?" ++ encodeQuery (buildPairs pkg suite arch trigger ppa allProposed)

/-- The trigger-parameter resolution of `GenerateLinks` (generator.go:50-60). -/
def trigVal (req : LinkRequest) : String :=
  if req.Triggers.length > 0 then String.intercalate " " req.Triggers
  else if req.Version ≠ "" then req.Package ++ "/" ++ req.Version
  else "migration-reference/0"

/-- Go `GenerateLinks` (generator.go:41-85).  The per-architecture loop is the
`List.map`; the two message formats mirror the `fmt.Sprintf` calls. -/
def GenerateLinks (req : LinkRequest) : Except String LinkResponse :=
  if req.Package = "" then .error "package name is required"
  else if req.Suite = "" then .error "suite (release) is required"
  else
    let trigger := trigVal req
    if req.Architectures.length > 0 then
      let urls := req.Architectures.map
        (fun arch => buildURL req.Package req.Suite arch trigger req.PPA req.AllProposed)
      .ok { URLs := urls,
            Message := "Generated " ++ toString urls.length ++
              " trigger URL(s) for package '" ++ req.Package ++ "' on " ++ req.Suite ++
              " (" ++ String.intercalate ", " req.Architectures ++ ")" }
    else
      .ok { URLs := [buildURL req.Package req.Suite "" trigger req.PPA req.AllProposed],
            Message := "Generated trigger URL for package '" ++ req.Package ++
              "' on " ++ req.Suite ++ " (all architectures)" }

/-! ### Generic facts about the query encoder -/

theorem mem_insertPair {x p : String × String} {l : List (String × String)}
    (h : x = p ∨ x ∈ l) : x ∈ insertPair p l := by
  induction l with
  | nil =>
    rcases h with h | h
    · simp [insertPair, h]
    · cases h
  | cons q qs ih =>
    unfold insertPair
    by_cases hlt : strLt p.1 q.1 = true
    · rcases h with h | h <;> simp [hlt, h]
    · simp only [hlt]
      rcases h with h | h
      · simp [List.mem_cons, ih (Or.inl h)]
      · rcases List.mem_cons.mp h with h | h
        · simp [h]
        · simp [List.mem_cons, ih (Or.inr h)]

theorem mem_sortPairs {x : String × String} {l : List (String × String)}
    (h : x ∈ l) : x ∈ sortPairs l := by
  induction l with
  | nil => cases h
  | cons p ps ih =>
    unfold sortPairs
    rcases List.mem_cons.mp h with h | h
    · exact mem_insertPair (Or.inl h)
    · exact mem_insertPair (Or.inr (ih h))

theorem containsSubList_of_prefix {hay pat : List Char}
    (h : pat.isPrefixOf hay = true) : containsSubList hay pat = true := by
  cases hay with
  | nil =>
    have : pat = [] := by
      cases pat with
      | nil => rfl
      | cons c cs => simp [List.isPrefixOf] at h
    simp [containsSubList, this]
  | cons c cs => simp [containsSubList, h]

theorem containsSubList_append_right {m pat : List Char} (l : List Char)
    (h : containsSubList m pat = true) : containsSubList (l ++ m) pat = true := by
  induction l with
  | nil => simpa using h
  | cons c cs ih => simp [containsSubList, ih]

theorem containsSubList_self (l : List Char) : containsSubList l l = true :=
  containsSubList_of_prefix (List.isPrefixOf_iff_prefix.mpr List.prefix_rfl)

theorem isPrefixOf_append (l m : List Char) : l.isPrefixOf (l ++ m) = true :=
  List.isPrefixOf_iff_prefix.mpr (List.prefix_append l m)

/-- The query component of a pair, as `url.Values.Encode` writes it. -/
def pairComponent (q : String × String) : String :=
  queryEscape q.1 ++ "=" ++ queryEscape q.2

theorem encodeSorted_contains (ps : List (String × String)) (q : String × String)
    (h : q ∈ ps) :
    containsSubList (encodeSorted ps).data (pairComponent q).data = true := by
  induction ps with
  | nil => cases h
  | cons p rest ih =>
    cases rest with
    | nil =>
      have hq : q = p := by simpa using h
      subst hq
      exact containsSubList_self _
    | cons r rs =>
      rcases List.mem_cons.mp h with h | h
      · subst h
        show containsSubList ((pairComponent q ++ "&") ++ encodeSorted (r :: rs)).data _ = true
        rw [String.data_append, String.data_append]
        exact containsSubList_of_prefix
          (by rw [List.append_assoc]; exact isPrefixOf_append _ _)
      · show containsSubList ((pairComponent p ++ "&") ++ encodeSorted (r :: rs)).data _ = true
        rw [String.data_append]
        exact containsSubList_append_right _ (ih h)

theorem buildURL_contains_param (pkg suite arch trigger ppa : String) (ap : Bool)
    (q : String × String) (h : q ∈ buildPairs pkg suite arch trigger ppa ap) :
    containsSub (buildURL pkg suite arch trigger ppa ap) (pairComponent q) = true := by
  show containsSubList ((generatorBaseURL ++ "?") ++
    encodeSorted (sortPairs (buildPairs pkg suite arch trigger ppa ap))).data _ = true
  rw [String.data_append]
  exact containsSubList_append_right _ (encodeSorted_contains _ _ (mem_sortPairs h))

theorem lookup_arch_none (pkg suite trigger ppa : String) (ap : Bool) :
    List.lookup "arch" (buildPairs pkg suite "" trigger ppa ap) = none := by
  unfold buildPairs
  rw [if_pos rfl]
  by_cases hppa : ppa = "" <;> by_cases hap : ap = true <;>
    simp [hppa, hap, List.lookup]

theorem lookup_arch_some (pkg suite arch trigger ppa : String) (ap : Bool)
    (h : arch ≠ "") :
    List.lookup "arch" (buildPairs pkg suite arch trigger ppa ap) = some arch := by
  unfold buildPairs
  rw [if_neg h]
  rfl

theorem lookup_trigger_some (pkg suite arch trigger ppa : String) (ap : Bool) :
    List.lookup "trigger" (buildPairs pkg suite arch trigger ppa ap) = some trigger := by
  rfl

/-! ### Claim C9 -/

/-- C9: `GenerateLinks` fails with `ValidationError("package name is required")`
exactly when the request's package is empty, fails with
`ValidationError("suite (release) is required")` exactly when the package is
non-empty and the suite is empty, and succeeds for every request with both
fields non-empty. -/
theorem c9_validation (req : LinkRequest) :
    (req.Package = "" → GenerateLinks req = .error "package name is required") ∧
    (req.Package ≠ "" → req.Suite = "" →
      GenerateLinks req = .error "suite (release) is required") ∧
    (req.Package ≠ "" → req.Suite ≠ "" → ∃ resp, GenerateLinks req = .ok resp) := by
  refine ⟨?_, ?_, ?_⟩
  · intro hp; simp [GenerateLinks, hp]
  · intro hp hs; simp [GenerateLinks, hp, hs]
  · intro hp hs
    by_cases harch : req.Architectures.length > 0
    · simp only [GenerateLinks, if_neg hp, if_neg hs, if_pos harch]
      exact ⟨_, rfl⟩
    · simp only [GenerateLinks, if_neg hp, if_neg hs, if_neg harch]
      exact ⟨_, rfl⟩

/-- Witness for C9 at concrete requests. -/
theorem c9_validation_witness :
    GenerateLinks ⟨"", "", [], [], "noble", "", false⟩ =
      .error "package name is required" ∧
    GenerateLinks ⟨"testpkg", "", [], [], "", "", false⟩ =
      .error "suite (release) is required" ∧
    ∃ resp, GenerateLinks ⟨"testpkg", "", [], [], "noble", "", false⟩ = .ok resp :=
  ⟨(c9_validation _).1 rfl,
   (c9_validation _).2.1 (by decide) rfl,
   (c9_validation _).2.2 (by decide) (by decide)⟩

/-! ### Claim C3 -/

/-- C3 counterexample: for the valid request with the single architecture
`""` (one architecture, so `k = 1`), the generated URL carries no `arch`
parameter at all — `buildURL` only adds `arch` for a non-empty value — so the
i-th URL does not carry an `arch` parameter equal to the i-th input
architecture. -/
theorem c3_fanout_counterexample :
    (GenerateLinks ⟨"testpkg", "", [], [""], "noble", "", false⟩).toOption =
      some ⟨["https://autopkgtest.ubuntu.com/request.cgi?package=testpkg&release=noble&trigger=migration-reference%2F0"],
           "Generated 1 trigger URL(s) for package 'testpkg' on noble ()"⟩ ∧
    containsSub "https://autopkgtest.ubuntu.com/request.cgi?package=testpkg&release=noble&trigger=migration-reference%2F0"
      "arch=" = false ∧
    List.lookup "arch"
      (buildPairs "testpkg" "noble" "" "migration-reference/0" "" false) = none := by
  refine ⟨by decide, by decide, by decide⟩

/-- C3 (amended): for every valid `LinkRequest` with `k ≥ 1` architectures,
`GenerateLinks` returns exactly `k` URLs in the same order as the input
architecture list, the i-th URL being built for the i-th architecture and —
whenever that architecture is non-empty — carrying an `arch` parameter equal
to it (an empty architecture string yields a URL with no `arch` parameter);
for every valid request with zero architectures it returns exactly one URL
with no `arch` parameter. -/
theorem c3_fanout (req : LinkRequest)
    (hp : req.Package ≠ "") (hs : req.Suite ≠ "") :
    (req.Architectures = [] →
      GenerateLinks req = .ok
        ⟨[buildURL req.Package req.Suite "" (trigVal req) req.PPA req.AllProposed],
         "Generated trigger URL for package '" ++ req.Package ++ "' on " ++
           req.Suite ++ " (all architectures)"⟩ ∧
      List.lookup "arch"
        (buildPairs req.Package req.Suite "" (trigVal req) req.PPA req.AllProposed) =
        none) ∧
    (req.Architectures ≠ [] →
      ∃ resp, GenerateLinks req = .ok resp ∧
        resp.URLs = req.Architectures.map
          (fun a => buildURL req.Package req.Suite a (trigVal req) req.PPA req.AllProposed) ∧
        resp.URLs.length = req.Architectures.length ∧
        (∀ a ∈ req.Architectures, a ≠ "" →
          List.lookup "arch"
            (buildPairs req.Package req.Suite a (trigVal req) req.PPA req.AllProposed) =
            some a ∧
          containsSub
            (buildURL req.Package req.Suite a (trigVal req) req.PPA req.AllProposed)
            ("arch=" ++ queryEscape a) = true) ∧
        (∀ a ∈ req.Architectures, a = "" →
          List.lookup "arch"
            (buildPairs req.Package req.Suite a (trigVal req) req.PPA req.AllProposed) =
            none)) := by
  constructor
  · intro harch
    have hlen : ¬ req.Architectures.length > 0 := by simp [harch]
    refine ⟨?_, lookup_arch_none _ _ _ _ _⟩
    simp only [GenerateLinks, if_neg hp, if_neg hs, if_neg hlen]
  · intro harch
    have hlen : req.Architectures.length > 0 := List.length_pos.mpr harch
    simp only [GenerateLinks, if_neg hp, if_neg hs, if_pos hlen]
    refine ⟨_, rfl, rfl, by simp, ?_, ?_⟩
    · intro a _ ha
      refine ⟨lookup_arch_some _ _ _ _ _ _ ha, ?_⟩
      have hmem : ("arch", a) ∈
          buildPairs req.Package req.Suite a (trigVal req) req.PPA req.AllProposed := by
        unfold buildPairs
        rw [if_neg ha]
        simp
      have h := buildURL_contains_param req.Package req.Suite a (trigVal req)
        req.PPA req.AllProposed _ hmem
      have hcomp : pairComponent ("arch", a) = "arch=" ++ queryEscape a := by
        show queryEscape "arch" ++ "=" ++ queryEscape a = "arch=" ++ queryEscape a
        have h1 : queryEscape "arch" ++ "=" = "arch=" := by decide
        rw [← h1]
      rwa [hcomp] at h
    · intro a _ ha
      rw [ha]
      exact lookup_arch_none _ _ _ _ _

/-- Witness for C3 at a concrete two-architecture request. -/
theorem c3_fanout_witness :
    ∃ resp,
      GenerateLinks ⟨"testpkg", "", [], ["amd64", "arm64"], "noble", "", false⟩ =
        .ok resp ∧
      resp.URLs =
        [buildURL "testpkg" "noble" "amd64" "migration-reference/0" "" false,
         buildURL "testpkg" "noble" "arm64" "migration-reference/0" "" false] ∧
      List.lookup "arch"
        (buildPairs "testpkg" "noble" "amd64" "migration-reference/0" "" false) =
        some "amd64" := by
  obtain ⟨resp, heq, hurls, -, hsome, -⟩ :=
    (c3_fanout ⟨"testpkg", "", [], ["amd64", "arm64"], "noble", "", false⟩
      (by decide) (by decide)).2 (by decide)
  refine ⟨resp, heq, by rw [hurls]; rfl, ?_⟩
  exact (hsome "amd64" (by decide) (by decide)).1

/-! ### Claim C4 -/

/-- C4: trigger-parameter precedence.  For every valid `LinkRequest`, a
non-empty `Triggers` list makes the `trigger` parameter the triggers joined
with a single ASCII space (ignoring `Version`); otherwise a non-empty
`Version` yields `<package>/<version>`; otherwise the literal
`migration-reference/0`, which appears percent-encoded in the query as
`trigger=migration-reference%2F0`. -/
theorem c4_trigger_precedence (req : LinkRequest)
    (hp : req.Package ≠ "") (hs : req.Suite ≠ "") :
    (req.Triggers ≠ [] → trigVal req = String.intercalate " " req.Triggers) ∧
    (req.Triggers = [] → req.Version ≠ "" →
      trigVal req = req.Package ++ "/" ++ req.Version) ∧
    (req.Triggers = [] → req.Version = "" → trigVal req = "migration-reference/0") ∧
    (∃ resp, GenerateLinks req = .ok resp ∧ ∀ url ∈ resp.URLs,
      (∃ a, url = buildURL req.Package req.Suite a (trigVal req) req.PPA req.AllProposed ∧
        List.lookup "trigger"
          (buildPairs req.Package req.Suite a (trigVal req) req.PPA req.AllProposed) =
          some (trigVal req)) ∧
      (req.Triggers = [] → req.Version = "" →
        containsSub url "trigger=migration-reference%2F0" = true)) := by
  have htri : ∀ a, req.Triggers = [] → req.Version = "" →
      containsSub (buildURL req.Package req.Suite a (trigVal req) req.PPA req.AllProposed)
        "trigger=migration-reference%2F0" = true := by
    intro a ht hv
    have hval : trigVal req = "migration-reference/0" := by
      simp [trigVal, ht, hv]
    have hmem : ("trigger", trigVal req) ∈
        buildPairs req.Package req.Suite a (trigVal req) req.PPA req.AllProposed := by
      unfold buildPairs
      simp
    have h := buildURL_contains_param req.Package req.Suite a (trigVal req)
      req.PPA req.AllProposed _ hmem
    have hcomp : pairComponent ("trigger", trigVal req) =
        "trigger=migration-reference%2F0" := by
      rw [hval]
      decide
    rwa [hcomp] at h
  refine ⟨?_, ?_, ?_, ?_⟩
  · intro h
    have : req.Triggers.length > 0 := List.length_pos.mpr h
    simp [trigVal, this]
  · intro ht hv
    simp [trigVal, ht, hv]
  · intro ht hv
    simp [trigVal, ht, hv]
  · by_cases hlen : req.Architectures.length > 0
    · simp only [GenerateLinks, if_neg hp, if_neg hs, if_pos hlen]
      refine ⟨_, rfl, ?_⟩
      intro url hurl
      obtain ⟨a, -, ha⟩ := List.mem_map.mp hurl
      subst ha
      exact ⟨⟨a, rfl, lookup_trigger_some _ _ _ _ _ _⟩, htri a⟩
    · simp only [GenerateLinks, if_neg hp, if_neg hs, if_neg hlen]
      refine ⟨_, rfl, ?_⟩
      intro url hurl
      have ha : url = buildURL req.Package req.Suite "" (trigVal req) req.PPA req.AllProposed := by
        simpa using hurl
      subst ha
      exact ⟨⟨"", rfl, lookup_trigger_some _ _ _ _ _ _⟩, htri ""⟩

/-- Witness for C4 at a concrete request with neither triggers nor version. -/
theorem c4_trigger_precedence_witness :
    trigVal ⟨"testpkg", "", [], [], "noble", "", false⟩ = "migration-reference/0" ∧
    containsSub (buildURL "testpkg" "noble" "" "migration-reference/0" "" false)
      "trigger=migration-reference%2F0" = true := by
  obtain ⟨-, -, h3, resp, heq, hall⟩ :=
    c4_trigger_precedence ⟨"testpkg", "", [], [], "noble", "", false⟩
      (by decide) (by decide)
  have hval := h3 rfl rfl
  have hresp : resp =
      ⟨[buildURL "testpkg" "noble" "" "migration-reference/0" "" false],
       "Generated trigger URL for package 'testpkg' on noble (all architectures)"⟩ := by
    have h2 : GenerateLinks ⟨"testpkg", "", [], [], "noble", "", false⟩ =
        .ok ⟨[buildURL "testpkg" "noble" "" "migration-reference/0" "" false],
             "Generated trigger URL for package 'testpkg' on noble (all architectures)"⟩ := rfl
    rw [heq] at h2
    exact (Except.ok.injEq _ _).mp h2.symm |>.symm
  refine ⟨hval, ?_⟩
  have hmem : buildURL "testpkg" "noble" "" "migration-reference/0" "" false ∈ resp.URLs := by
    rw [hresp]
    simp
  exact (hall _ hmem).2 rfl rfl

/-! ## Trigger client (`internal/autopkgtest-client/client.go`)

`TriggerTest` (client.go:108) issues a GET and then classifies the pure
response data.  We embed the classification of the final response URL and
body.  Of the extracted success fields only the UUID is modelled: it is the
only one the control flow inspects (the `result.UUID == ""` check at
client.go:174); the other extractions fill record fields no claim mentions. -/

/-- The character class `[a-f0-9-]` of the UUID-extraction regex
(client.go:129). -/
def isUUIDChar (c : Char) : Bool :=
  ('a' ≤ c && c ≤ 'f') || ('0' ≤ c && c ≤ '9') || c = '-'

/-- Take the `([a-f0-9-]{36})` capture group: exactly 36 characters of the
class, or fail. -/
def take36UUID (cs : List Char) : Option (List Char) :=
  let u := cs.take 36
  if u.length = 36 && u.all isUUIDChar then some u else none

/-- Match `\s*\n\s*` followed by the capture, starting at `cs`: because the
class `[a-f0-9-]` is disjoint from `\s`, the greedy RE2 semantics reduce to
"skip the maximal whitespace run, require a newline inside it". -/
def wsNlThenUUID (cs : List Char) : Option (List Char) :=
  let ws := cs.takeWhile isRe2Space
  if ws.contains '\n' then take36UUID (cs.dropWhile isRe2Space) else none

/-- Try the regex `(?:UUID\s*\n\s*|<dt>UUID</dt>\s*\n\s*<dd>)([a-f0-9-]{36})`
anchored at the current position, first alternative preferred (RE2
leftmost-first). -/
def matchUUIDAt (cs : List Char) : Option (List Char) :=
  (if ("UUID".data).isPrefixOf cs then wsNlThenUUID (cs.drop 4) else none).orElse
    (fun _ =>
      if ("<dt>UUID</dt>".data).isPrefixOf cs then
        let r := (cs.drop 13)
        let ws := r.takeWhile isRe2Space
        if ws.contains '\n' then
          let r2 := r.dropWhile isRe2Space
          if ("<dd>".data).isPrefixOf r2 then take36UUID (r2.drop 4) else none
        else none
      else none)

/-- Leftmost match of the UUID regex over the body. -/
def scanUUID : List Char → Option (List Char)
  | [] => none
  | c :: cs =>
    match matchUUIDAt (c :: cs) with
    | some u => some u
    | none => scanUUID cs

/-- Go `FindStringSubmatch` of the UUID regex (client.go:129-132): the captured
group, if any. -/
def extractUUID (body : String) : Option String :=
  (scanUUID body.data).map String.mk

/-- The modelled part of `TriggerResult` (client.go:17): the extracted UUID. -/
structure TriggerResult where
  UUID : String
deriving DecidableEq

/-- The classification outcomes of `TriggerTest` (client.go:108-207), one per
`return` site.  `invalidRequest` covers both the extracted-message and the
details-not-available returns (client.go:190-195): the regex there only
selects the error text, not the outcome kind. -/
inductive TriggerOutcome where
  | success (r : TriggerResult)
  | malformedSuccess
  | alreadyRunning
  | invalidRequest
  | authRequired
  | unexpected
deriving DecidableEq

/-- The response classification of `TriggerTest` (client.go:120-207):
`finalURL` is `resp.Request.URL.String()` after redirects, `body` the
response body. -/
def triggerClassify (finalURL body : String) : TriggerOutcome :=
  if containsSub body "Test request submitted" then
    match extractUUID body with
    | some u => .success ⟨u⟩
    | none => .malformedSuccess
  else if containsSub body "You submitted an invalid request" then
    if containsSub body "Test already running" then .alreadyRunning
    else .invalidRequest
  else if containsSub finalURL "/login" ||
      (containsSub body "login" && !(containsSub body "Logout")) then .authRequired
  else .unexpected

/-- Split a char list on a separator character (every occurrence, keeping
empty pieces), for stating the canonical UUID pattern. -/
def splitOnChar (sep : Char) : List Char → List (List Char)
  | [] => [[]]
  | c :: tl =>
    if c = sep then [] :: splitOnChar sep tl
    else
      match splitOnChar sep tl with
      | [] => [[c]]
      | h :: t => (c :: h) :: t

/-- The canonical 8-4-4-4-12 lowercase-hex UUID pattern, as the spec's data
model states it (this is the claimed property, not code): five hyphen-joined
groups of lowercase hex digits with lengths 8, 4, 4, 4, 12. -/
def isCanonicalUUID (s : String) : Bool :=
  let parts := splitOnChar '-' s.data
  parts.length = 5 &&
  (parts.map List.length) = [8, 4, 4, 4, 12] &&
  parts.all (fun p => p.all
    (fun c => ('0' ≤ c && c ≤ '9') || ('a' ≤ c && c ≤ 'f')))

theorem take36UUID_shape {cs u : List Char} (h : take36UUID cs = some u) :
    u.length = 36 ∧ u.all isUUIDChar = true := by
  unfold take36UUID at h
  by_cases hc : ((cs.take 36).length = 36 && (cs.take 36).all isUUIDChar) = true
  · rw [if_pos hc] at h
    cases h
    rw [Bool.and_eq_true] at hc
    exact ⟨by simpa using hc.1, hc.2⟩
  · rw [if_neg hc] at h
    cases h

theorem wsNlThenUUID_shape {cs u : List Char} (h : wsNlThenUUID cs = some u) :
    u.length = 36 ∧ u.all isUUIDChar = true := by
  unfold wsNlThenUUID at h
  by_cases hc : ((cs.takeWhile isRe2Space).contains '\n') = true
  · rw [if_pos hc] at h
    exact take36UUID_shape h
  · rw [if_neg hc] at h
    cases h

theorem matchUUIDAt_shape {cs u : List Char} (h : matchUUIDAt cs = some u) :
    u.length = 36 ∧ u.all isUUIDChar = true := by
  unfold matchUUIDAt at h
  rcases h1 : (if ("UUID".data).isPrefixOf cs then wsNlThenUUID (cs.drop 4) else none) with
    _ | v
  · rw [h1] at h
    simp only [Option.orElse] at h
    by_cases hp : ("<dt>UUID</dt>".data).isPrefixOf cs = true
    · rw [if_pos hp] at h
      by_cases hn : (((cs.drop 13).takeWhile isRe2Space).contains '\n') = true
      · rw [if_pos hn] at h
        by_cases hd : ("<dd>".data).isPrefixOf ((cs.drop 13).dropWhile isRe2Space) = true
        · rw [if_pos hd] at h
          exact take36UUID_shape h
        · rw [if_neg hd] at h
          cases h
      · rw [if_neg hn] at h
        cases h
    · rw [if_neg hp] at h
      cases h
  · rw [h1] at h
    simp only [Option.orElse] at h
    cases h
    by_cases hp : ("UUID".data).isPrefixOf cs = true
    · rw [if_pos hp] at h1
      exact wsNlThenUUID_shape h1
    · rw [if_neg hp] at h1
      cases h1

theorem scanUUID_shape {cs u : List Char} (h : scanUUID cs = some u) :
    u.length = 36 ∧ u.all isUUIDChar = true := by
  induction cs with
  | nil => cases h
  | cons c tl ih =>
    unfold scanUUID at h
    rcases h1 : matchUUIDAt (c :: tl) with _ | v
    · rw [h1] at h
      exact ih h
    · rw [h1] at h
      cases h
      exact matchUUIDAt_shape h1

/-! ### Claim C5 -/

/-- C5 counterexample: a success body whose extractable token is 36 `a`s.
`TriggerTest` accepts it (the regex class is `[a-f0-9-]{36}`, not the
canonical grouped form) and returns it as the UUID, which does not match the
canonical 8-4-4-4-12 pattern the claim states. -/
theorem c5_uuid_counterexample :
    triggerClassify "" "Test request submitted\nUUID\naaaaaaaaaaaaaaaaaaaaaaaaaaaaaaaaaaaa" =
      .success ⟨"aaaaaaaaaaaaaaaaaaaaaaaaaaaaaaaaaaaa"⟩ ∧
    isCanonicalUUID "aaaaaaaaaaaaaaaaaaaaaaaaaaaaaaaaaaaa" = false := by
  refine ⟨by decide, by decide⟩

/-- C5 (amended): for every response from which `TriggerTest` returns a
result, the UUID is exactly 36 characters drawn from lowercase hex digits
and hyphens (the canonical 8-4-4-4-12 grouping is *not* guaranteed); and on
a success-marked body from which no UUID can be extracted the call fails
with `MalformedSuccessResponse`. -/
theorem c5_uuid_shape (finalURL body : String) :
    (∀ r, triggerClassify finalURL body = .success r →
      r.UUID.data.length = 36 ∧ r.UUID.data.all isUUIDChar = true) ∧
    (containsSub body "Test request submitted" = true → extractUUID body = none →
      triggerClassify finalURL body = .malformedSuccess) := by
  constructor
  · intro r h
    unfold triggerClassify at h
    by_cases hs : containsSub body "Test request submitted" = true
    · rw [if_pos hs] at h
      rcases he : extractUUID body with _ | u
      · rw [he] at h
        cases h
      · rw [he] at h
        cases h
        obtain ⟨cs, hscan, hmk⟩ : ∃ cs, scanUUID body.data = some cs ∧ String.mk cs = u := by
          unfold extractUUID at he
          rcases hsc : scanUUID body.data with _ | cs
          · rw [hsc] at he
            cases he
          · rw [hsc] at he
            cases he
            exact ⟨cs, rfl, rfl⟩
        have := scanUUID_shape hscan
        rw [← hmk]
        exact this
    · rw [if_neg hs] at h
      by_cases h2 : containsSub body "You submitted an invalid request" = true
      · rw [if_pos h2] at h
        by_cases h3 : containsSub body "Test already running" = true
        · rw [if_pos h3] at h; cases h
        · rw [if_neg h3] at h; cases h
      · rw [if_neg h2] at h
        by_cases h4 : (containsSub finalURL "/login" ||
            (containsSub body "login" && !(containsSub body "Logout"))) = true
        · rw [if_pos h4] at h; cases h
        · rw [if_neg h4] at h; cases h
  · intro hs he
    unfold triggerClassify
    rw [if_pos hs, he]

/-- Witness for C5 at the mocked success body used by the repository's own
test (a canonical UUID) and a success body with no extractable UUID. -/
theorem c5_uuid_shape_witness :
    ((⟨"ae232d9f-08bd-4e36-90b7-7e3811776a64"⟩ : TriggerResult).UUID.data.length = 36 ∧
      (⟨"ae232d9f-08bd-4e36-90b7-7e3811776a64"⟩ : TriggerResult).UUID.data.all isUUIDChar = true) ∧
    triggerClassify "" "Test request submitted.\nno identifier here" =
      .malformedSuccess := by
  constructor
  · exact (c5_uuid_shape "" "Test request submitted\nUUID\nae232d9f-08bd-4e36-90b7-7e3811776a64").1
      ⟨"ae232d9f-08bd-4e36-90b7-7e3811776a64"⟩ (by decide)
  · exact (c5_uuid_shape "" "Test request submitted.\nno identifier here").2
      (by decide) (by decide)

/-! ### Claim C8 -/

/-- C8: classification order in `TriggerTest`.  A body without the success
marker but with the invalid-request marker fails with `AlreadyRunning` (when
it also says `Test already running`) or `InvalidRequest` — never with
`AuthenticationRequired`, whatever the final URL and however many times the
token `login` occurs in the body: the invalid-request check precedes the
authentication check. -/
theorem c8_classification_order (finalURL body : String)
    (hns : containsSub body "Test request submitted" = false)
    (hinv : containsSub body "You submitted an invalid request" = true) :
    (containsSub body "Test already running" = true →
      triggerClassify finalURL body = .alreadyRunning) ∧
    (containsSub body "Test already running" = false →
      triggerClassify finalURL body = .invalidRequest) ∧
    triggerClassify finalURL body ≠ .authRequired := by
  have hcls : triggerClassify finalURL body =
      (if containsSub body "Test already running" then TriggerOutcome.alreadyRunning
       else TriggerOutcome.invalidRequest) := by
    unfold triggerClassify
    rw [if_neg (by simp [hns]), if_pos hinv]
  refine ⟨?_, ?_, ?_⟩
  · intro h
    rw [hcls, if_pos h]
  · intro h
    rw [hcls, if_neg (by simp [h])]
  · rw [hcls]
    by_cases h : containsSub body "Test already running" = true
    · rw [if_pos h]
      exact fun hc => by cases hc
    · rw [if_neg h]
      exact fun hc => by cases hc

/-- Witness for C8 at a body that contains both the invalid-request marker
and the token `login`. -/
theorem c8_classification_order_witness :
    triggerClassify "https://autopkgtest.ubuntu.com/request.cgi"
      "<p>You submitted an invalid request: bad trigger</p><a>login</a>" =
      .invalidRequest := by
  exact (c8_classification_order _ _ (by decide) (by decide)).2.1 (by decide)

/-! ### `GetTestStatus` (client.go:210-266) -/

/-- Match the Result-row regex `(?i)\|\s*Result\s*\|[^|]*\|` anchored at the
current position, returning the matched substring.  The pattern is
deterministic: `\s`, the letters of `Result` and `|` are pairwise disjoint
alternatives at every step. -/
def matchResultRowAt (cs : List Char) : Option (List Char) :=
  match cs with
  | '|' :: rest =>
    let ws1 := rest.takeWhile isRe2Space
    let r1 := rest.dropWhile isRe2Space
    let word := r1.take 6
    if word.length = 6 && word.map Char.toLower = "result".data then
      let r2 := r1.drop 6
      let ws2 := r2.takeWhile isRe2Space
      let r3 := r2.dropWhile isRe2Space
      match r3 with
      | '|' :: r4 =>
        let mid := r4.takeWhile (fun c => c ≠ '|')
        let r5 := r4.dropWhile (fun c => c ≠ '|')
        match r5 with
        | '|' :: _ => some ('|' :: ws1 ++ word ++ ws2 ++ '|' :: mid ++ ['|'])
        | _ => none
      | _ => none
    else none
  | _ => none

/-- Leftmost match of the Result-row regex (`FindString`, client.go:233-234). -/
def findResultRow : List Char → Option (List Char)
  | [] => none
  | c :: cs =>
    match matchResultRowAt (c :: cs) with
    | some m => some m
    | none => findResultRow cs

/-- The `Status` field computed by `GetTestStatus` (client.go:231-255).  The
`TestStatus` is created with a zero-valued `Status`; when the Result row
matches but contains none of the probed keywords the field is left at `""`. -/
def statusOf (body : String) : String :=
  match findResultRow body.data with
  | some row =>
    if containsSubList row ("tmpfail".data) || containsSubList row ("⚠ tmpfail".data) then
      "tmpfail"
    else if containsSubList row ("✖ fail".data) || containsSubList row ("fail".data) then
      "fail"
    else if containsSubList row ("✔ pass".data) || containsSubList row ("pass".data) then
      "pass"
    else if containsSubList row ("neutral".data) || containsSubList row ("😐neutral".data) then
      "neutral"
    else ""
  | none =>
    if containsSub body "In progress" then "running"
    else if containsSub body "Queued" then "queued"
    else "unknown"

/-- The status enumeration documented on the `TestStatus.Status` field
(client.go:31). -/
def documentedStatuses : List String :=
  ["queued", "running", "pass", "fail", "neutral", "tmpfail", "unknown"]

/-! ### Claim C6 -/

/-- C6 (code bug): `GetTestStatus` is documented (client.go:31) to return a
`Status` among the seven enumerated values, but a body whose Result row
carries an unrecognized verdict leaves the zero value `""` in place: on
`"| Result | bogus |"` the computed status is the empty string, which is
none of the seven values.  (The recognized-keyword order tmpfail/fail/pass
and the no-Result-row fallbacks running/queued/unknown are as claimed; the
empty-string hole is the divergence.) -/
theorem c6_status_enumeration_bug :
    statusOf "| Result | bogus |" = "" ∧
    documentedStatuses.contains "" = false ∧
    statusOf "| Result | ✔ pass |" = "pass" ∧
    statusOf "| Result | ✖ fail |" = "fail" ∧
    statusOf "| Result | ⚠ tmpfail |" = "tmpfail" ∧
    statusOf "| Result | 😐neutral |" = "neutral" ∧
    statusOf "Test In progress..." = "running" ∧
    statusOf "Queued, waiting" = "queued" ∧
    statusOf "something else" = "unknown" := by
  refine ⟨by decide, by decide, by decide, by decide, by decide, by decide,
    by decide, by decide, by decide⟩

/-! ### `WaitForCompletion` (client.go:390-419)

The real function runs a ticker at `pollInterval` and a timer at `timeout`
inside a `select`.  We abstract the real-time schedule into the number `n`
of ticker firings that occur before the timer fires, and a trace
`fetch : Nat → Except String TestStatus` giving the outcome of the k-th
`GetTestStatus` call (calls 0 .. n-1 happen in the loop; call `n` is the
final fetch made when the timer fires). -/

/-- The modelled fields of `TestStatus` (client.go:29) that
`WaitForCompletion` inspects. -/
structure TestStatus where
  UUID : String
  Status : String
deriving DecidableEq

/-- The terminal-status test of the polling loop (client.go:406). -/
def isTerminalStatus (s : String) : Bool :=
  s == "pass" || s == "fail" || s == "neutral" || s == "tmpfail"

/-- One constructor per `return` site of `WaitForCompletion`:
`completed` (client.go:407), `pollError` (client.go:402, the in-loop error),
`finalFetchError` (client.go:414, the wrapped error of the final fetch) and
`timeout` (client.go:416, the timeout error carrying the finally fetched
status). -/
inductive WaitOutcome where
  | completed (st : TestStatus)
  | pollError (e : String)
  | finalFetchError (e : String)
  | timeout (lastStatus : String)
deriving DecidableEq

/-- The polling loop with `k` fetches already made and the given number of
ticker firings still to come before the timer fires. -/
def waitLoop (fetch : Nat → Except String TestStatus) (k : Nat) :
    Nat → WaitOutcome
  | 0 =>
    match fetch k with
    | .error e => .finalFetchError e
    | .ok st => .timeout st.Status
  | n + 1 =>
    match fetch k with
    | .error e => .pollError e
    | .ok st =>
      if isTerminalStatus st.Status then .completed st
      else waitLoop fetch (k + 1) n

/-- Go `WaitForCompletion` under the tick-count abstraction. -/
def waitForCompletion (fetch : Nat → Except String TestStatus) (n : Nat) :
    WaitOutcome :=
  waitLoop fetch 0 n

theorem waitLoop_completes (fetch : Nat → Except String TestStatus) :
    ∀ n k j st, j < n →
      (∀ m, m < j → ∃ s, fetch (k + m) = .ok s ∧ isTerminalStatus s.Status = false) →
      fetch (k + j) = .ok st → isTerminalStatus st.Status = true →
      waitLoop fetch k n = .completed st := by
  intro n
  induction n with
  | zero => intro k j st hj; omega
  | succ n ih =>
    intro k j st hj hpre hfetch hterm
    cases j with
    | zero =>
      show waitLoop fetch k (n + 1) = _
      unfold waitLoop
      rw [show k + 0 = k from rfl] at hfetch
      simp only [hfetch]
      rw [if_pos hterm]
    | succ j =>
      obtain ⟨s0, hs0, hnt⟩ := hpre 0 (Nat.succ_pos j)
      show waitLoop fetch k (n + 1) = _
      unfold waitLoop
      rw [show k + 0 = k from rfl] at hs0
      simp only [hs0]
      rw [if_neg (by simp [hnt])]
      refine ih (k + 1) j st (by omega) ?_ ?_ hterm
      · intro m hm
        have := hpre (m + 1) (by omega)
        rwa [show k + (m + 1) = k + 1 + m by omega] at this
      · rwa [show k + 1 + j = k + (j + 1) by omega]

theorem waitLoop_timesOut (fetch : Nat → Except String TestStatus) :
    ∀ n k,
      (∀ m, m < n → ∃ s, fetch (k + m) = .ok s ∧ isTerminalStatus s.Status = false) →
      waitLoop fetch k n =
        (match fetch (k + n) with
         | .error e => .finalFetchError e
         | .ok st => .timeout st.Status) := by
  intro n
  induction n with
  | zero =>
    intro k _
    rfl
  | succ n ih =>
    intro k hpre
    obtain ⟨s0, hs0, hnt⟩ := hpre 0 (Nat.succ_pos n)
    show waitLoop fetch k (n + 1) = _
    unfold waitLoop
    rw [show k + 0 = k from rfl] at hs0
    simp only [hs0]
    rw [if_neg (by simp [hnt])]
    have := ih (k + 1) (fun m hm => by
      have := hpre (m + 1) (by omega)
      rwa [show k + (m + 1) = k + 1 + m by omega] at this)
    rwa [show k + 1 + n = k + (n + 1) by omega] at this

/-! ### Claim C7 -/

/-- C7 counterexample: with one poll observing `running` and the final fetch
at the timeout returning `pass`, `WaitForCompletion` fails with a
`TimeoutError` carrying `pass` — a *terminal* status — so the timeout error
does not in general carry "the last observed non-terminal status". -/
theorem c7_wait_counterexample :
    waitForCompletion
      (fun k => .ok ⟨"u", if k = 0 then "running" else "pass"⟩) 1 =
      .timeout "pass" ∧
    isTerminalStatus "pass" = true := by
  refine ⟨by decide, by decide⟩

/-- C7 (amended): `WaitForCompletion` returns the fetched `TestStatus` as
soon as a poll observes a terminal status (pass, fail, neutral or tmpfail —
`unknown` is non-terminal and the loop continues); when the timeout elapses
first it performs exactly one final status fetch, surfaces that fetch's
error if it fails, and otherwise fails with a `TimeoutError` carrying the
status returned by that final fetch (the last observed status, which may
itself already be terminal). -/
theorem c7_wait_behavior (fetch : Nat → Except String TestStatus) (n : Nat) :
    isTerminalStatus "unknown" = false ∧
    isTerminalStatus "queued" = false ∧
    isTerminalStatus "running" = false ∧
    (∀ j st, j < n →
      (∀ m, m < j → ∃ s, fetch m = .ok s ∧ isTerminalStatus s.Status = false) →
      fetch j = .ok st → isTerminalStatus st.Status = true →
      waitForCompletion fetch n = .completed st) ∧
    ((∀ m, m < n → ∃ s, fetch m = .ok s ∧ isTerminalStatus s.Status = false) →
      (∀ e, fetch n = .error e → waitForCompletion fetch n = .finalFetchError e) ∧
      (∀ st, fetch n = .ok st → waitForCompletion fetch n = .timeout st.Status)) := by
  refine ⟨by decide, by decide, by decide, ?_, ?_⟩
  · intro j st hj hpre hfetch hterm
    exact waitLoop_completes fetch n 0 j st hj (by simpa using hpre) (by simpa using hfetch)
      hterm
  · intro hpre
    have h := waitLoop_timesOut fetch n 0 (by simpa using hpre)
    rw [show (0 : Nat) + n = n by omega] at h
    constructor
    · intro e he
      rw [waitForCompletion, h, he]
    · intro st hst
      rw [waitForCompletion, h, hst]

/-- Witness for C7: a trace that turns `pass` on the third poll completes
with it; a trace that stays `running` times out carrying the final fetch's
status. -/
theorem c7_wait_behavior_witness :
    waitForCompletion
      (fun k => .ok ⟨"u", if k < 2 then "running" else "pass"⟩) 5 =
      .completed ⟨"u", "pass"⟩ ∧
    waitForCompletion (fun _ => .ok ⟨"u", "running"⟩) 3 = .timeout "running" := by
  constructor
  · refine (c7_wait_behavior (fun k => .ok ⟨"u", if k < 2 then "running" else "pass"⟩)
      5).2.2.2.1 2 ⟨"u", "pass"⟩ (by omega) ?_ rfl (by decide)
    intro m hm
    refine ⟨⟨"u", "running"⟩, ?_, by decide⟩
    have : m < 2 := hm
    simp [this]
  · exact ((c7_wait_behavior (fun _ => .ok ⟨"u", "running"⟩) 3).2.2.2.2
      (fun m _ => ⟨⟨"u", "running"⟩, rfl, by decide⟩)).2 ⟨"u", "running"⟩ rfl

/-! ## Result extractor (`internal/scraper/scraper.go`)

The scraper works on the node tree produced by `html.Parse`.  We embed the
tree (`html.Node`) as a mutual inductive — element nodes with a tag, an
attribute list and children, and text nodes — and translate every function
from `scraper.go` that walks it.  `ParseHTML` is embedded from the parsed
tree onwards (the call to the `golang.org/x/net/html` parser itself is the
boundary of the embedding). -/

mutual
inductive HNode where
  | text (s : String)
  | elem (tag : String) (attrs : List (String × String)) (children : HForest)
inductive HForest where
  | nil
  | cons (n : HNode) (f : HForest)
end

def HForest.toList : HForest → List HNode
  | .nil => []
  | .cons n f => n :: f.toList

mutual
/-- Go `getNodeText` (scraper.go:384): all descendant text, in document order. -/
def getNodeText : HNode → String
  | .text s => s
  | .elem _ _ cs => getForestText cs
def getForestText : HForest → String
  | .nil => ""
  | .cons n f => getNodeText n ++ getForestText f
end

/-- The child list of a node (empty for text nodes). -/
def childNodes : HNode → List HNode
  | .text _ => []
  | .elem _ _ cs => cs.toList

/-- Whether a node is an element with the given tag. -/
def isElemWithTag (t : String) (n : HNode) : Bool :=
  match n with
  | .elem tag _ _ => tag == t
  | .text _ => false

/-- The class-attribute check of `findMatrixTable` (scraper.go:222-227). -/
def hasTableClass (attrs : List (String × String)) : Bool :=
  attrs.any (fun a => a.1 == "class" && containsSub a.2 "table")

/-- The content check of `findMatrixTable` (scraper.go:231-236). -/
def tableContentOK (tableText : String) : Bool :=
  (containsSub tableText "focal" || containsSub tableText "jammy" ||
   containsSub tableText "noble" || containsSub tableText "questing") &&
  (containsSub tableText "amd64" || containsSub tableText "arm64")

mutual
/-- Go `findMatrixTable` (scraper.go:218-249): depth-first, first hit wins. -/
def findMatrixTable : HNode → Option HNode
  | .text _ => none
  | .elem tag attrs cs =>
    if tag == "table" && hasTableClass attrs && tableContentOK (getForestText cs) then
      some (.elem tag attrs cs)
    else findForestTable cs
def findForestTable : HForest → Option HNode
  | .nil => none
  | .cons n f =>
    match findMatrixTable n with
    | some r => some r
    | none => findForestTable f
end

/-- Go `TestResult` (scraper.go:14). -/
structure TestResult where
  Package : String
  Release : String
  Architecture : String
  Status : String
  Duration : String
  Trigger : String
  LogURL : String
deriving DecidableEq

/-- Go `PackageResults` (scraper.go:25). -/
structure PackageResults where
  Package : String
  Tests : List TestResult
  Errors : List TestResult
deriving DecidableEq

/-- Go `Filter` (scraper.go:32). -/
structure Filter where
  Release : String
  Architecture : String
deriving DecidableEq

/-- ASCII lower-casing, one character (Lean's `Char.toLower`); Go's
`strings.ToLower`/`EqualFold` additionally fold non-ASCII letters, which do
not occur in any release/architecture/status token handled here. -/
def toLowerStr (s : String) : String :=
  String.mk (s.data.map Char.toLower)

/-- Go `strings.EqualFold` (ASCII folding, see `toLowerStr`). -/
def eqFold (a b : String) : Bool := toLowerStr a == toLowerStr b

/-- Go `isPassingStatus` (scraper.go:134-139). -/
def isPassingStatus (status : String) : Bool :=
  let n := toLowerStr (goTrim status)
  n == "pass" || n == "✔ pass" || n == "neutral" || n == "😐 neutral" ||
  containsSub n "pass"

/-- Go `applyFilter` (scraper.go:110-131): keep a test iff every non-empty
filter field matches case-insensitively. -/
def applyFilter (tests : List TestResult) (f : Filter) : List TestResult :=
  tests.filter (fun t =>
    (f.Release == "" || eqFold t.Release f.Release) &&
    (f.Architecture == "" || eqFold t.Architecture f.Architecture))

/-- Go `isHeaderRow` (scraper.go:252-259): the row has some `th` cell. -/
def isHeaderRow (tr : HNode) : Bool :=
  (childNodes tr).any (isElemWithTag "th")

/-- Go `extractReleaseHeaders` (scraper.go:262-291): locate the header `tr`
(directly, or as the first `tr` child of a `thead`), then the trimmed text
of every `th`/`td` cell — the empty corner cell included. -/
def extractReleaseHeaders (headerNode : HNode) : List String :=
  let headerRow : Option HNode :=
    if isElemWithTag "thead" headerNode then
      (childNodes headerNode).find? (isElemWithTag "tr")
    else if isElemWithTag "tr" headerNode then some headerNode
    else none
  match headerRow with
  | none => []
  | some row =>
    (childNodes row).filterMap (fun cell =>
      if isElemWithTag "th" cell || isElemWithTag "td" cell then
        some (goTrim (getNodeText cell))
      else none)

/-- Replace every maximal `\s`-run by a single space: the
`regexp.MustCompile(`+"`\\s+`"+`).ReplaceAllString(text, " ")` call of
`extractStatusFromCell` (scraper.go:363-364). -/
def collapseRe2SpaceAux : Bool → List Char → List Char
  | _, [] => []
  | prev, c :: cs =>
    if isRe2Space c then
      if prev then collapseRe2SpaceAux true cs
      else ' ' :: collapseRe2SpaceAux true cs
    else c :: collapseRe2SpaceAux false cs

def collapseRe2Space (cs : List Char) : List Char :=
  collapseRe2SpaceAux false cs

/-- Go `extractStatusFromCell` (scraper.go:355-367): trim, replace `\n` and
`\t` by spaces, collapse whitespace runs, trim again. -/
def extractStatusFromCell (c : HNode) : String :=
  let t := (goTrim (getNodeText c)).data
  let t := t.map (fun ch => if ch = '\n' then ' ' else ch)
  let t := t.map (fun ch => if ch = '\t' then ' ' else ch)
  goTrim (String.mk (collapseRe2Space t))

/-- Go `extractLink` (scraper.go:370-381): the `href` of the first `a` child
that has one. -/
def extractLink : List HNode → String
  | [] => ""
  | n :: rest =>
    match n with
    | .elem "a" attrs _ =>
      match List.lookup "href" attrs with
      | some v => v
      | none => extractLink rest
    | _ => extractLink rest

/-- Go `strings.HasPrefix`. -/
def hasPrefixStr (s pre : String) : Bool :=
  pre.data.isPrefixOf s.data

/-- The base URL set by `NewScraper` (scraper.go:46). -/
def scraperBaseURL : String := "https://autopkgtest.ubuntu.com"

/-- The `LogURL` assignment of `parseMatrixRow` (scraper.go:341-348). -/
def cellLogURL (c : HNode) : String :=
  if 0 < (extractLink (childNodes c)).length then
    if !(hasPrefixStr (extractLink (childNodes c)) "http") then
      scraperBaseURL ++ "/" ++ extractLink (childNodes c)
    else extractLink (childNodes c)
  else ""

/-- The cell loop of `parseMatrixRow` (scraper.go:318-351): cell `i` (the
cells *after* the leading architecture cell) is paired with `releases[i]`;
the loop breaks past the header length and skips empty releases and empty
statuses. -/
def parseCells (pkg arch : String) (rels : List String) :
    Nat → List HNode → List TestResult
  | _, [] => []
  | i, c :: cs =>
    if h : i < rels.length then
      if (goTrim (rels.get ⟨i, h⟩)).length = 0 then
        parseCells pkg arch rels (i + 1) cs
      else if (goTrim (extractStatusFromCell c)).length = 0 then
        parseCells pkg arch rels (i + 1) cs
      else
        { Package := pkg, Release := rels.get ⟨i, h⟩, Architecture := arch,
          Status := extractStatusFromCell c, Duration := "", Trigger := "",
          LogURL := cellLogURL c } :: parseCells pkg arch rels (i + 1) cs
    else []

/-- Go `parseMatrixRow` (scraper.go:294-352): the first `td`/`th` cell is the
architecture; the remaining cells are parsed against the release list. -/
def parseMatrixRow (pkg : String) (rels : List String) (tr : HNode) :
    List TestResult :=
  match (childNodes tr).filter (fun n => isElemWithTag "td" n || isElemWithTag "th" n) with
  | [] => []
  | archCell :: rest =>
    let architecture := goTrim (getNodeText archCell)
    if (goTrim architecture).length = 0 || rest.length = 0 then []
    else parseCells pkg architecture rels 0 rest

/-- The row loop of `ProcessTbody` (scraper.go:177-194); `rows` is the
`tbody`-local accumulator, `fh` the caller's `foundHeader`. -/
def processTbodyRows : List HNode → List String → List HNode → Bool →
    List String × List HNode × Bool
  | [], rels, rows, fh => (rels, rows, fh)
  | n :: rest, rels, rows, fh =>
    if isElemWithTag "tr" n then
      if !fh && isHeaderRow n then
        processTbodyRows rest (extractReleaseHeaders n) rows true
      else if fh then processTbodyRows rest rels (rows ++ [n]) fh
      else processTbodyRows rest rels rows fh
    else processTbodyRows rest rels rows fh

/-- Go `ProcessThead` (scraper.go:197-204). -/
def processThead (children : List HNode) : List String :=
  match children.find? (isElemWithTag "tr") with
  | some tr => extractReleaseHeaders tr
  | none => []

/-- Go `ProcessTr` (scraper.go:207-215). -/
def processTr (tr : HNode) (rels : List String) (rows : List HNode) (fh : Bool) :
    List String × List HNode × Bool :=
  if !fh && isHeaderRow tr then (extractReleaseHeaders tr, rows, true)
  else if fh then (rels, rows ++ [tr], fh)
  else (rels, rows, fh)

/-- The child loop of `parseMatrixTable` (scraper.go:154-168).  Note the
`tbody` case *replaces* the caller's `rows` with the `tbody`-local list,
exactly as `releases, rows = s.ProcessTbody(...)` does. -/
def tableScan : List HNode → List String → List HNode → Bool →
    List String × List HNode
  | [], rels, rows, _ => (rels, rows)
  | n :: rest, rels, rows, fh =>
    match n with
    | .text _ => tableScan rest rels rows fh
    | .elem tag attrs cs =>
      if tag == "tbody" then
        let r := processTbodyRows cs.toList rels [] fh
        tableScan rest r.1 r.2.1 r.2.2
      else if tag == "thead" then
        tableScan rest (processThead cs.toList) rows true
      else if tag == "tr" then
        let r := processTr (.elem tag attrs cs) rels rows fh
        tableScan rest r.1 r.2.1 r.2.2
      else tableScan rest rels rows fh

/-- Go `parseMatrixTable` (scraper.go:143-174): find the matrix table, recover
headers and rows, then parse each row with the final release list. -/
def parseMatrixTable (root : HNode) (pkg : String) : List TestResult :=
  match findMatrixTable root with
  | none => []
  | some table =>
    let s := tableScan (childNodes table) [] [] false
    s.2.flatMap (parseMatrixRow pkg s.1)

/-- Go `ParseHTML` (scraper.go:79-107), from the parsed document tree: parse
the matrix, apply the optional filter, then derive `Errors` from the
post-filter `Tests` (the loop at scraper.go:100-104 is the `List.filter`). -/
def parseHTML (doc : HNode) (pkg : String) (filt : Option Filter) :
    PackageResults :=
  let tests0 := parseMatrixTable doc pkg
  let tests :=
    match filt with
    | some f => applyFilter tests0 f
    | none => tests0
  { Package := pkg, Tests := tests,
    Errors := tests.filter (fun t => !isPassingStatus t.Status) }

/-- One per-error block of `ReportErrors` (scraper.go:410-429); `i` is the
zero-based loop index. -/
def errBlock (i : Nat) (e : TestResult) : String :=
  "Error " ++ toString (i + 1) ++ ":\n" ++
  ("\tStatus: " ++ e.Status ++ "\n") ++
  (if 0 < e.Release.length then "\tRelease: " ++ e.Release ++ "\n" else "") ++
  (if 0 < e.Architecture.length then "\tArchitecture: " ++ e.Architecture ++ "\n" else "") ++
  (if 0 < e.Duration.length then "\tDuration: " ++ e.Duration ++ "\n" else "") ++
  (if 0 < e.Trigger.length then "\tTrigger: " ++ e.Trigger ++ "\n" else "") ++
  (if 0 < e.LogURL.length then "\tDetails: " ++ e.LogURL ++ "\n" else "") ++
  "\n"

def errBlocks : Nat → List TestResult → String
  | _, [] => ""
  | i, e :: es => errBlock i e ++ errBlocks (i + 1) es

/-- Go `ReportErrors` (scraper.go:402-432). -/
def reportErrors (r : PackageResults) : String :=
  if r.Errors.length = 0 then "No errors found for package: " ++ r.Package
  else
    "Found " ++ toString r.Errors.length ++ " errors for package: " ++
      r.Package ++ "\n\n" ++ errBlocks 0 r.Errors

/-! ### Mock document (the 2×3 matrix of the repository's own scraper test) -/

def tx (s : String) : HNode := .text s

def listToForest : List HNode → HForest
  | [] => .nil
  | n :: ns => .cons n (listToForest ns)

def el (tag : String) (attrs : List (String × String)) (children : List HNode) :
    HNode :=
  .elem tag attrs (listToForest children)

/-- A matrix cell `<td class="..."><a href="...">status</a></td>` with the
whitespace the mock page carries around the anchor. -/
def mockCell (cls href statusText : String) : HNode :=
  el "td" [("class", cls)]
    [tx "\n      ", el "a" [("href", href)] [tx statusText], tx "\n    "]

/-- The header row `<tr><th></th><th>focal</th><th>jammy</th><th>noble</th></tr>`. -/
def mockHeaderRow : HNode :=
  el "tr" []
    [tx "\n    ", el "th" [] [], tx "\n    ",
     el "th" [] [tx "focal"], el "th" [] [tx "jammy"],
     el "th" [] [tx "noble"], tx "\n  "]

def mockRowAmd64 : HNode :=
  el "tr" []
    [tx "\n    ", el "th" [] [tx "amd64"], tx "\n    ",
     mockCell "pass" "ovn/focal/amd64" "pass",
     mockCell "pass" "ovn/jammy/amd64" "pass",
     mockCell "fail" "ovn/noble/amd64" "fail", tx "\n  "]

def mockRowArm64 : HNode :=
  el "tr" []
    [tx "\n    ", el "th" [] [tx "arm64"], tx "\n    ",
     mockCell "pass" "ovn/focal/arm64" "pass",
     mockCell "regression" "ovn/jammy/arm64" "regression",
     mockCell "pass" "ovn/noble/arm64" "pass", tx "\n  "]

/-- The parsed tree of the mocked `ovn` results page: a 2×3 matrix
(amd64, arm64 × focal, jammy, noble) with statuses pass, pass, fail /
pass, regression, pass. -/
def mockOvnDoc : HNode :=
  el "html" []
    [el "head" [] [el "title" [] [tx "autopkgtest results for ovn"]],
     el "body" []
       [el "h1" [] [tx "Package: ovn"],
        el "table" [("class", "table"), ("style", "width: auto")]
          [tx "\n  ",
           el "tbody" []
             [tx "\n  ", mockHeaderRow, tx "\n  ", mockRowAmd64,
              tx "\n  ", mockRowArm64, tx "\n  "],
           tx "\n"]]]

/-! ### Claim C1 -/

/-- C1 (code bug): the release header of the mocked 2×3 page yields
`["", "focal", "jammy", "noble"]` — the empty corner cell included — but
`parseMatrixRow` pairs the cells after the architecture cell with
`releases[0..]`, not `releases[1..]`.  Parsing therefore yields 4
TestResults, not 6: each row's focal-column cell is dropped against the
empty corner label and every remaining cell is attributed to the release one
column to its left.  The two errors come out as `fail` on jammy/amd64 and
`regression` on focal/arm64 instead of noble/amd64 and jammy/arm64.  (The
repository's own test expects 6 results in its comment; its weakened
`>= 4` assertion hides the misalignment.) -/
theorem c1_matrix_alignment_bug :
    extractReleaseHeaders mockHeaderRow = ["", "focal", "jammy", "noble"] ∧
    (parseHTML mockOvnDoc "ovn" none).Tests.length = 4 ∧
    (parseHTML mockOvnDoc "ovn" none).Tests.map
      (fun t => (t.Architecture, t.Release, t.Status, t.LogURL)) =
    [("amd64", "focal", "pass", "https://autopkgtest.ubuntu.com/ovn/jammy/amd64"),
     ("amd64", "jammy", "fail", "https://autopkgtest.ubuntu.com/ovn/noble/amd64"),
     ("arm64", "focal", "regression", "https://autopkgtest.ubuntu.com/ovn/jammy/arm64"),
     ("arm64", "jammy", "pass", "https://autopkgtest.ubuntu.com/ovn/noble/arm64")] ∧
    (parseHTML mockOvnDoc "ovn" none).Errors.map
      (fun t => (t.Architecture, t.Release, t.Status)) =
    [("amd64", "jammy", "fail"), ("arm64", "focal", "regression")] := by
  refine ⟨by decide, by decide, by decide, by decide⟩

/-! ### Claim C2 -/

/-- The error-selection predicate as the spec words it (§4.1, §8): the
lowercased, trimmed status neither equals nor contains `pass`, and does not
equal `neutral` nor its emoji-decorated form. -/
def specNonPassing (status : String) : Bool :=
  let n := toLowerStr (goTrim status)
  !(n == "pass") && !(containsSub n "pass") && !(n == "neutral") &&
  !(n == "😐 neutral")

/-- The complement of `isPassingStatus` is exactly the spec's predicate:
the `"pass"` and `"✔ pass"` equality cases of `isPassingStatus` are
subsumed by the `contains "pass"` case. -/
theorem not_isPassing (s : String) :
    (!isPassingStatus s) = specNonPassing s := by
  simp only [isPassingStatus, specNonPassing]
  generalize toLowerStr (goTrim s) = n
  by_cases h1 : n = "pass"
  · subst h1; decide
  by_cases h2 : n = "✔ pass"
  · subst h2; decide
  have e1 : (n == "pass") = false := by simp [h1]
  have e2 : (n == "✔ pass") = false := by simp [h2]
  rw [e1, e2]
  cases hc : (n == "neutral") <;> cases hd : (n == "😐 neutral") <;>
    cases he : containsSub n "pass" <;> simp

/-- C2: for every `PackageResults` returned by `ParseHTML` (with or without
a filter), `Errors` is exactly the stable subsequence — `List.filter`
preserves order — of the post-filter `Tests` whose lowercased, trimmed
status neither equals nor contains `pass` and does not equal `neutral` nor
its emoji-decorated form. -/
theorem c2_errors_subsequence (doc : HNode) (pkg : String) (filt : Option Filter) :
    (parseHTML doc pkg filt).Errors =
      (parseHTML doc pkg filt).Tests.filter (fun t => specNonPassing t.Status) := by
  simp only [parseHTML]
  exact List.filter_congr (fun t _ => not_isPassing t.Status)

/-! ### Claim C10 -/

theorem parseCells_fields (pkg arch : String) (rels : List String) :
    ∀ i cells, ∀ t ∈ parseCells pkg arch rels i cells,
      t.Duration = "" ∧ t.Trigger = "" := by
  intro i cells
  induction cells generalizing i with
  | nil =>
    intro t h
    simp [parseCells] at h
  | cons c cs ih =>
    intro t h
    unfold parseCells at h
    by_cases hi : i < rels.length
    · rw [dif_pos hi] at h
      by_cases h1 : (goTrim (rels.get ⟨i, hi⟩)).length = 0
      · rw [if_pos h1] at h
        exact ih (i + 1) t h
      · rw [if_neg h1] at h
        by_cases h2 : (goTrim (extractStatusFromCell c)).length = 0
        · rw [if_pos h2] at h
          exact ih (i + 1) t h
        · rw [if_neg h2] at h
          rcases List.mem_cons.mp h with h | h
          · subst h; exact ⟨rfl, rfl⟩
          · exact ih (i + 1) t h
    · rw [dif_neg hi] at h
      cases h

theorem parseMatrixRow_fields (pkg : String) (rels : List String) (tr : HNode) :
    ∀ t ∈ parseMatrixRow pkg rels tr, t.Duration = "" ∧ t.Trigger = "" := by
  intro t h
  unfold parseMatrixRow at h
  split at h
  · cases h
  · dsimp only at h
    split at h
    · cases h
    · exact parseCells_fields _ _ _ _ _ t h

theorem parseHTML_tests_fields (doc : HNode) (pkg : String) (filt : Option Filter) :
    ∀ t ∈ (parseHTML doc pkg filt).Tests, t.Duration = "" ∧ t.Trigger = "" := by
  have hbase : ∀ u ∈ parseMatrixTable doc pkg, u.Duration = "" ∧ u.Trigger = "" := by
    intro u hu
    unfold parseMatrixTable at hu
    split at hu
    · cases hu
    · dsimp only at hu
      obtain ⟨row, -, hmem⟩ := List.mem_flatMap.mp hu
      exact parseMatrixRow_fields _ _ _ u hmem
  intro t h
  rcases filt with _ | f
  · simp only [parseHTML] at h
    exact hbase t h
  · simp only [parseHTML, applyFilter] at h
    exact hbase t (List.mem_filter.mp h).1

/-- Per-error block with the Duration and Trigger lines omitted: the shape
the claim says extractor-derived reports always take. -/
def errBlockNoDurTrig (i : Nat) (e : TestResult) : String :=
  "Error " ++ toString (i + 1) ++ ":\n" ++
  ("\tStatus: " ++ e.Status ++ "\n") ++
  (if 0 < e.Release.length then "\tRelease: " ++ e.Release ++ "\n" else "") ++
  (if 0 < e.Architecture.length then "\tArchitecture: " ++ e.Architecture ++ "\n" else "") ++
  (if 0 < e.LogURL.length then "\tDetails: " ++ e.LogURL ++ "\n" else "") ++
  "\n"

def errBlocksNoDurTrig : Nat → List TestResult → String
  | _, [] => ""
  | i, e :: es => errBlockNoDurTrig i e ++ errBlocksNoDurTrig (i + 1) es

/-- Go `ReportErrors` as it behaves on error lists whose Duration and Trigger
fields are empty: no block carries a Duration or Trigger line. -/
def reportErrorsNoDurTrig (r : PackageResults) : String :=
  if r.Errors.length = 0 then "No errors found for package: " ++ r.Package
  else
    "Found " ++ toString r.Errors.length ++ " errors for package: " ++
      r.Package ++ "\n\n" ++ errBlocksNoDurTrig 0 r.Errors

theorem errBlock_noDurTrig (i : Nat) (e : TestResult)
    (hd : e.Duration = "") (ht : e.Trigger = "") :
    errBlock i e = errBlockNoDurTrig i e := by
  unfold errBlock errBlockNoDurTrig
  rw [hd, ht]
  simp

theorem errBlocks_noDurTrig :
    ∀ (es : List TestResult) (i : Nat),
      (∀ e ∈ es, e.Duration = "" ∧ e.Trigger = "") →
      errBlocks i es = errBlocksNoDurTrig i es := by
  intro es
  induction es with
  | nil => intro i _; rfl
  | cons e tl ih =>
    intro i h
    have he := h e (List.mem_cons_self e tl)
    unfold errBlocks errBlocksNoDurTrig
    rw [errBlock_noDurTrig i e he.1 he.2,
      ih (i + 1) (fun x hx => h x (List.mem_cons_of_mem e hx))]

/-- C10 (implicit): every `TestResult` produced by the Result Extractor has
empty `Duration` and `Trigger` fields — the matrix parser never populates
them — so the per-error blocks `ReportErrors` renders for extractor output
never contain a Duration or Trigger line: the report equals the rendering
in which those two lines are omitted from every block. -/
theorem c10_no_duration_trigger (doc : HNode) (pkg : String) (filt : Option Filter) :
    (∀ t ∈ (parseHTML doc pkg filt).Tests, t.Duration = "" ∧ t.Trigger = "") ∧
    reportErrors (parseHTML doc pkg filt) =
      reportErrorsNoDurTrig (parseHTML doc pkg filt) := by
  refine ⟨parseHTML_tests_fields doc pkg filt, ?_⟩
  have herr : ∀ t ∈ (parseHTML doc pkg filt).Errors,
      t.Duration = "" ∧ t.Trigger = "" := by
    intro t h
    simp only [parseHTML] at h
    refine parseHTML_tests_fields doc pkg filt t ?_
    simp only [parseHTML]
    exact (List.mem_filter.mp h).1
  unfold reportErrors reportErrorsNoDurTrig
  by_cases hlen : (parseHTML doc pkg filt).Errors.length = 0
  · rw [if_pos hlen, if_pos hlen]
  · rw [if_neg hlen, if_neg hlen]
    rw [errBlocks_noDurTrig _ 0 herr]

/-- Witness for C10 at the mocked page: the report equality holds there, and
the first extracted test has empty Duration and Trigger. -/
theorem c10_no_duration_trigger_witness :
    reportErrors (parseHTML mockOvnDoc "ovn" none) =
      reportErrorsNoDurTrig (parseHTML mockOvnDoc "ovn" none) ∧
    ({ Package := "ovn", Release := "focal", Architecture := "amd64",
       Status := "pass", Duration := "", Trigger := "",
       LogURL := "https://autopkgtest.ubuntu.com/ovn/jammy/amd64" } : TestResult).Duration = "" ∧
    ({ Package := "ovn", Release := "focal", Architecture := "amd64",
       Status := "pass", Duration := "", Trigger := "",
       LogURL := "https://autopkgtest.ubuntu.com/ovn/jammy/amd64" } : TestResult).Trigger = "" := by
  have h := (c10_no_duration_trigger mockOvnDoc "ovn" none).1
    { Package := "ovn", Release := "focal", Architecture := "amd64",
      Status := "pass", Duration := "", Trigger := "",
      LogURL := "https://autopkgtest.ubuntu.com/ovn/jammy/amd64" } (by decide)
  exact ⟨(c10_no_duration_trigger mockOvnDoc "ovn" none).2, h.1, h.2⟩

end Autopkgtest
